import Mathlib

/-!
# WiFi provisioning firmware (`main/hello_world_main.c`)

A shallow embedding of the provisioning logic of `hello_world_main.c`:
the form parser and the credential save of `save_post_handler`, the load of
`try_saved_wifi`, the boot decision of `app_main` and the reconnect policy of
`wifi_event_handler`.

Conventions of the embedding:

* a C `char` is a natural number (a byte value, `0` is NUL); every theorem below
  holds for all lists of naturals, hence for all lists of bytes;
* a C buffer is the list of its bytes; a C string held in a buffer is the bytes
  before the first NUL (`cstr`);
* a pointer into `content` is an offset, a pointer difference is a natural number;
* the ESP-IDF services (NVS, WiFi driver, HTTP server) are explicit state.
-/

namespace MorseBot

/-! ## C string primitives -/

/-- The macro `MIN(x, y) (((x) < (y)) ? (x) : (y))`. -/
def MIN (x y : Nat) : Nat := if x < y then x else y

/-- The C string stored in a buffer: the bytes before the first NUL. -/
def cstr : List Nat → List Nat
  | [] => []
  | c :: cs => if c = 0 then [] else c :: cstr cs

/-- The libc `strlen`: number of bytes before the first NUL. -/
def strlen : List Nat → Nat
  | [] => 0
  | c :: cs => if c = 0 then 0 else strlen cs + 1

/-- Does the C string at `s` start with the bytes of `needle`?  The comparison
stops with a mismatch at the terminator of `s`. -/
def startsWith : List Nat → List Nat → Bool
  | _, [] => true
  | [], _ :: _ => false
  | c :: cs, n :: ns => if c = 0 then false else if c = n then startsWith cs ns else false

/-- The libc `strstr`: offset of the first occurrence of `needle` in the C string
at `s`, `none` for a NULL result. -/
def strstr : List Nat → List Nat → Option Nat
  | [], needle => if startsWith [] needle then some 0 else none
  | c :: cs, needle =>
    if startsWith (c :: cs) needle then some 0
    else if c = 0 then none
    else (strstr cs needle).map (· + 1)

/-- The libc `strchr` for a non-NUL character: offset of the first occurrence of
`ch` in the C string at `s`, `none` for a NULL result. -/
def strchr : List Nat → Nat → Option Nat
  | [], _ => none
  | c :: cs, ch =>
    if c = 0 then none
    else if c = ch then some 0
    else (strchr cs ch).map (· + 1)

/-- The `n` bytes that `strncpy(dest, src, n)` writes: the bytes of the C string at
`src`, at most `n` of them, then NUL padding up to `n` bytes. -/
def strncpyBytes : List Nat → Nat → List Nat
  | _, 0 => []
  | [], n + 1 => 0 :: strncpyBytes [] n
  | c :: cs, n + 1 => if c = 0 then 0 :: strncpyBytes [] n else c :: strncpyBytes cs n

/-- The libc `strncpy(dest, src, n)` on a destination buffer of at least `n` bytes:
the first `n` bytes are overwritten, the rest is kept. -/
def strncpy (dest src : List Nat) (n : Nat) : List Nat :=
  strncpyBytes src n ++ dest.drop n

/-! ## The request body buffer of `save_post_handler` -/

/-- The size of `char content[200]`. -/
def CONTENT_SIZE : Nat := 200

/-- The size of `char ssid[32]`. -/
def SSID_SIZE : Nat := 32

/-- The size of `char password[64]`. -/
def PASSWORD_SIZE : Nat := 64

/-- The bytes of the literal `"ssid="`. -/
def ssidKey : List Nat := [115, 115, 105, 100, 61]

/-- The bytes of the literal `"password="`. -/
def passwordKey : List Nat := [112, 97, 115, 115, 119, 111, 114, 100, 61]

/-- The character `'&'`. -/
def AMP : Nat := 38

/-- The character `'='`. -/
def EQUALS : Nat := 61

/-- The value of `recv_size = MIN(req->content_len, sizeof(content))`. -/
def recv_size (content_len : Nat) : Nat := MIN content_len CONTENT_SIZE

/-- The buffer `content` after `httpd_req_recv` stored `data` at its start and the
handler executed `content[recv_size] = 0`.  `stack` is the uninitialised
buffer.  For `n` beyond the buffer the C write is out of bounds; the model leaves
the buffer as it is there. -/
def contentAfterRecv (stack data : List Nat) (n : Nat) : List Nat :=
  (data ++ stack.drop data.length).set n 0

/-- The buffer `ssid` after the block "Parse SSID" (lines 129-144). -/
def parse_ssid (content : List Nat) : List Nat :=
  let ssid := List.replicate SSID_SIZE 0
  match strstr content ssidKey with
  | none => ssid
  | some off =>
    let ssid_ptr := content.drop (off + 5)
    match strchr ssid_ptr AMP with
    | some d =>
      let len := MIN d (SSID_SIZE - 1)
      (strncpy ssid ssid_ptr len).set len 0
    | none => strncpy ssid ssid_ptr (SSID_SIZE - 1)

/-- The buffer `password` after the block "Parse password" (lines 130, 146-157). -/
def parse_password (content : List Nat) : List Nat :=
  let password := List.replicate PASSWORD_SIZE 0
  match strstr content passwordKey with
  | none => password
  | some off =>
    let pass_ptr := content.drop (off + 9)
    let pass_end :=
      match strchr pass_ptr AMP with
      | some d => d
      | none => strlen pass_ptr
    let len := MIN pass_end (PASSWORD_SIZE - 1)
    (strncpy password pass_ptr len).set len 0

/-! ## The NVS key-value store -/

/-- The persistent store: whether the partition is usable, and for every namespace
its key/string entries.  Strings are stored without their terminator. -/
structure Nvs where
  available : Bool
  spaces : List (String × List (String × List Nat))
deriving DecidableEq

/-- The open mode of `nvs_open`. -/
inductive NvsOpenMode where
  | NVS_READONLY
  | NVS_READWRITE
deriving DecidableEq

/-- Replace or add the binding of `k` in an association list. -/
def assocSet {β : Type} (k : String) (v : β) : List (String × β) → List (String × β)
  | [] => [(k, v)]
  | (k', v') :: rest => if k' = k then (k, v) :: rest else (k', v') :: assocSet k v rest

/-- The binding of `k` in an association list. -/
def assocGet {β : Type} (k : String) : List (String × β) → Option β
  | [] => none
  | (k', v') :: rest => if k' = k then some v' else assocGet k rest

/-- The call `nvs_open(name, mode, &handle)`: the store afterwards and the handle
(the namespace) on `ESP_OK`.  Read-only opening fails on a namespace that does not
exist; read-write opening creates it. -/
def nvs_open (nvs : Nvs) (name : String) (mode : NvsOpenMode) : Nvs × Option String :=
  if nvs.available then
    match assocGet name nvs.spaces, mode with
    | some _, _ => (nvs, some name)
    | none, .NVS_READONLY => (nvs, none)
    | none, .NVS_READWRITE => ({ nvs with spaces := assocSet name [] nvs.spaces }, some name)
  else (nvs, none)

/-- The call `nvs_set_str(handle, key, value)` (followed by `nvs_commit`): the C
string at `value` becomes the entry of `key`, replacing an earlier one. -/
def nvs_set_str (nvs : Nvs) (handle key : String) (value : List Nat) : Nvs :=
  match assocGet handle nvs.spaces with
  | none => nvs
  | some entries =>
    { nvs with spaces := assocSet handle (assocSet key (cstr value) entries) nvs.spaces }

/-- The call `nvs_get_str(handle, key, out, &length)` with `length` the size of `out`:
on `ESP_OK` the buffer `out` afterwards, holding the entry and its terminator; `none`
when the key is missing or the entry with its terminator does not fit. -/
def nvs_get_str (nvs : Nvs) (handle key : String) (out : List Nat) (length : Nat) :
    Option (List Nat) :=
  match assocGet handle nvs.spaces with
  | none => none
  | some entries =>
    match assocGet key entries with
    | none => none
    | some v => if v.length + 1 ≤ length then some (v ++ 0 :: out.drop (v.length + 1)) else none

/-! ## The WiFi driver and the HTTP server -/

/-- The radio modes of `wifi_mode_t` that the program sets. -/
inductive WifiMode where
  | WIFI_MODE_STA
  | WIFI_MODE_AP
  | WIFI_MODE_APSTA
deriving DecidableEq

/-- Does a radio mode include access-point mode? -/
def WifiMode.includesAP : WifiMode → Bool
  | .WIFI_MODE_STA => false
  | .WIFI_MODE_AP => true
  | .WIFI_MODE_APSTA => true

/-- The fields `sta.ssid` (32 bytes) and `sta.password` (64 bytes) of `wifi_config_t`. -/
structure StaConfig where
  ssid : List Nat
  password : List Nat
deriving DecidableEq

/-- The authentication modes the program names. -/
inductive AuthMode where
  | WIFI_AUTH_OPEN
  | WIFI_AUTH_WPA_WPA2_PSK
deriving DecidableEq

/-- The fields of `wifi_config_t.ap` that `wifi_init_softap` sets. -/
structure ApConfig where
  ssid : String
  password : String
  max_connection : Nat
  authmode : AuthMode
deriving DecidableEq

/-- The state of the WiFi driver as driven by the program: the mode of the last
`esp_wifi_set_mode` (`none` before the first), the configurations of the last
`esp_wifi_set_config`, whether the radio is started, and the number of
`esp_wifi_connect` requests issued so far.  Driver calls are taken to succeed. -/
structure Wifi where
  mode : Option WifiMode
  sta_config : Option StaConfig
  ap_config : Option ApConfig
  started : Bool
  connects : Nat
deriving DecidableEq

/-- The driver before any call. -/
def Wifi.initial : Wifi :=
  { mode := none, sta_config := none, ap_config := none, started := false, connects := 0 }

/-- Is the access point active: the radio is started in a mode that includes AP. -/
def Wifi.apActive (w : Wifi) : Bool :=
  w.started && (match w.mode with
    | some m => m.includesAP
    | none => false)

/-- The call `esp_wifi_connect()`. -/
def esp_wifi_connect (w : Wifi) : Wifi := { w with connects := w.connects + 1 }

/-- The device: store, driver, and whether `start_webserver` has started the
configuration server. -/
structure Sys where
  nvs : Nvs
  wifi : Wifi
  server : Bool
deriving DecidableEq

/-- The libc `strcpy(dest, src)` on a destination buffer that is large enough. -/
def strcpy (dest src : List Nat) : List Nat :=
  cstr src ++ 0 :: dest.drop (strlen src + 1)

/-! ## `wifi_event_handler` -/

/-- The event bases the handler is registered for. -/
inductive EventBase where
  | WIFI_EVENT
  | IP_EVENT
deriving DecidableEq

/-- The values of the ESP-IDF event id constants the handler compares with (their
declarations are in the ESP-IDF headers). -/
structure EventIds where
  WIFI_EVENT_AP_STACONNECTED : Int
  WIFI_EVENT_AP_STADISCONNECTED : Int
  WIFI_EVENT_STA_START : Int
  WIFI_EVENT_STA_DISCONNECTED : Int
  IP_EVENT_STA_GOT_IP : Int
deriving DecidableEq

/-- The ids of `wifi_event_t` are the values of one enumeration: pairwise distinct. -/
def EventIds.wifiDistinct (K : EventIds) : Prop :=
  K.WIFI_EVENT_AP_STACONNECTED ≠ K.WIFI_EVENT_AP_STADISCONNECTED ∧
  K.WIFI_EVENT_AP_STACONNECTED ≠ K.WIFI_EVENT_STA_START ∧
  K.WIFI_EVENT_AP_STACONNECTED ≠ K.WIFI_EVENT_STA_DISCONNECTED ∧
  K.WIFI_EVENT_AP_STADISCONNECTED ≠ K.WIFI_EVENT_STA_START ∧
  K.WIFI_EVENT_AP_STADISCONNECTED ≠ K.WIFI_EVENT_STA_DISCONNECTED ∧
  K.WIFI_EVENT_STA_START ≠ K.WIFI_EVENT_STA_DISCONNECTED

/-- The event ids of ESP-IDF v5 (`esp_wifi_types.h`, `esp_netif_types.h`). -/
def idfEventIds : EventIds :=
  { WIFI_EVENT_AP_STACONNECTED := 14
    WIFI_EVENT_AP_STADISCONNECTED := 15
    WIFI_EVENT_STA_START := 2
    WIFI_EVENT_STA_DISCONNECTED := 5
    IP_EVENT_STA_GOT_IP := 0 }

/-- The arguments of one event delivery; `event_data` stands for the payload (the
reason code of a disconnect, the MAC and AID of a station, the address acquired). -/
structure Event where
  event_base : EventBase
  event_id : Int
  event_data : Nat
deriving DecidableEq

/-- The function `wifi_event_handler` (lines 84-104); logging has no effect on the
state. -/
def wifi_event_handler (K : EventIds) (w : Wifi) (e : Event) : Wifi :=
  if e.event_base = .WIFI_EVENT ∧ e.event_id = K.WIFI_EVENT_AP_STACONNECTED then w
  else if e.event_base = .WIFI_EVENT ∧ e.event_id = K.WIFI_EVENT_AP_STADISCONNECTED then w
  else if e.event_base = .WIFI_EVENT ∧ e.event_id = K.WIFI_EVENT_STA_START then
    esp_wifi_connect w
  else if e.event_base = .WIFI_EVENT ∧ e.event_id = K.WIFI_EVENT_STA_DISCONNECTED then
    esp_wifi_connect w
  else if e.event_base = .IP_EVENT ∧ e.event_id = K.IP_EVENT_STA_GOT_IP then w
  else w

/-- Delivery of a sequence of events to the registered handler, in order. -/
def deliver (K : EventIds) (sys : Sys) (events : List Event) : Sys :=
  events.foldl (fun s e => { s with wifi := wifi_event_handler K s.wifi e }) sys

/-! ## `save_post_handler` -/

/-- What a handler sent to the client. -/
inductive Response where
  | timeout408
  | ok200 (body : String)
deriving DecidableEq

/-- The return values of the handler. -/
inductive EspErr where
  | ESP_OK
  | ESP_FAIL
deriving DecidableEq

/-- The acknowledgment page of `save_post_handler`. -/
def ackPage : String :=
  "<html><body><h1>Connecting to WiFi...</h1><p>Device will now connect to the specified WiFi network.</p></body></html>"

/-- The block "Save credentials to NVS" (lines 161-172). -/
def save_credentials (nvs : Nvs) (ssid password : List Nat) : Nvs :=
  match nvs_open nvs "wifi_creds" .NVS_READWRITE with
  | (nvs1, some nvs_handle) =>
    nvs_set_str (nvs_set_str nvs1 nvs_handle "ssid" ssid) nvs_handle "password" password
  | (nvs1, none) => nvs1

/-- The block "Connect to the new WiFi" (lines 174-181). -/
def connect_new_wifi (w : Wifi) (ssid password : List Nat) : Wifi :=
  let wifi_config : StaConfig :=
    { ssid := strcpy (List.replicate 32 0) ssid
      password := strcpy (List.replicate 64 0) password }
  esp_wifi_connect { w with mode := some .WIFI_MODE_STA, sta_config := some wifi_config }

/-- The outcome of one run of a handler. -/
structure HandlerResult where
  sys : Sys
  sent : List Response
  ret : EspErr
deriving DecidableEq

/-- The function `save_post_handler` (lines 114-187).  `TIMEOUT` is the value of
`HTTPD_SOCK_ERR_TIMEOUT`; `content_len` is `req->content_len`; `ret` and `data` are
the result of `httpd_req_recv` and the bytes it stored; `stack` is the
uninitialised buffer `content`. -/
def save_post_handler (TIMEOUT : Int) (sys : Sys) (stack : List Nat) (content_len : Nat)
    (ret : Int) (data : List Nat) : HandlerResult :=
  if ret ≤ 0 then
    if ret = TIMEOUT then { sys := sys, sent := [.timeout408], ret := .ESP_FAIL }
    else { sys := sys, sent := [], ret := .ESP_FAIL }
  else
    let content := contentAfterRecv stack data (recv_size content_len)
    let ssid := parse_ssid content
    let password := parse_password content
    let nvs := save_credentials sys.nvs ssid password
    let wifi := connect_new_wifi sys.wifi ssid password
    { sys := { sys with nvs := nvs, wifi := wifi }, sent := [.ok200 ackPage], ret := .ESP_OK }

/-! ## Boot: `wifi_init_softap`, `try_saved_wifi`, `app_main` -/

/-- The macro `EXAMPLE_ESP_WIFI_SSID`. -/
def EXAMPLE_ESP_WIFI_SSID : String := "ESP32_PROV"

/-- The macro `EXAMPLE_ESP_WIFI_PASS`. -/
def EXAMPLE_ESP_WIFI_PASS : String := "12345678"

/-- The macro `EXAMPLE_MAX_STA_CONN`. -/
def EXAMPLE_MAX_STA_CONN : Nat := 4

/-- The function `wifi_init_softap` (lines 222-261), as far as the driver state goes. -/
def wifi_init_softap (w : Wifi) : Wifi :=
  let wifi_config : ApConfig :=
    { ssid := EXAMPLE_ESP_WIFI_SSID
      password := EXAMPLE_ESP_WIFI_PASS
      max_connection := EXAMPLE_MAX_STA_CONN
      authmode := if EXAMPLE_ESP_WIFI_PASS.length = 0 then .WIFI_AUTH_OPEN
        else .WIFI_AUTH_WPA_WPA2_PSK }
  { w with mode := some .WIFI_MODE_APSTA, ap_config := some wifi_config, started := true }

/-- The function `start_webserver` (lines 190-219) with `httpd_start` succeeding. -/
def start_webserver (sys : Sys) : Sys := { sys with server := true }

/-- The function `try_saved_wifi` (lines 264-308).  The calls `esp_wifi_disconnect` and
`esp_wifi_stop` leave the radio stopped; then the mode and the configuration are set,
the radio is started and the connect is issued. -/
def try_saved_wifi (sys : Sys) : Sys × Bool :=
  match nvs_open sys.nvs "wifi_creds" .NVS_READONLY with
  | (_, none) => (sys, false)
  | (_, some nvs_handle) =>
    match nvs_get_str sys.nvs nvs_handle "ssid" (List.replicate 32 0) 32 with
    | none => (sys, false)
    | some ssid =>
      match nvs_get_str sys.nvs nvs_handle "password" (List.replicate 64 0) 64 with
      | none => (sys, false)
      | some password =>
        let wifi_config : StaConfig :=
          { ssid := strcpy (List.replicate 32 0) ssid
            password := strcpy (List.replicate 64 0) password }
        let stopped : Wifi := { sys.wifi with started := false }
        let configured : Wifi :=
          { stopped with mode := some .WIFI_MODE_STA, sta_config := some wifi_config }
        let started : Wifi := { configured with started := true }
        ({ sys with wifi := esp_wifi_connect started }, true)

/-- The provisioning part of `app_main` (lines 341-394), run on the store as
`nvs_flash_init` left it, with the driver and the server not yet started. -/
def app_main (nvs : Nvs) : Sys :=
  let sys : Sys := { nvs := nvs, wifi := Wifi.initial, server := false }
  let has_saved_creds : Bool :=
    match nvs_open nvs "wifi_creds" .NVS_READONLY with
    | (_, some nvs_handle) =>
      (nvs_get_str nvs nvs_handle "ssid" (List.replicate 32 0) 32).isSome
    | (_, none) => false
  if has_saved_creds then
    match try_saved_wifi sys with
    | (sys1, true) => sys1
    | (sys1, false) => start_webserver sys1
  else
    start_webserver { sys with wifi := wifi_init_softap sys.wifi }

/-! ## Definitions that follow the specification's words -/

/-- The value that follows the first occurrence of `key` in a body: the bytes after it
up to the next `'&'` or the end of the body; `none` when `key` does not occur. -/
def valueAfter (key : List Nat) : List Nat → Option (List Nat)
  | [] => if key.isPrefixOf [] then some [] else none
  | c :: cs =>
    if key.isPrefixOf (c :: cs) then some (((c :: cs).drop key.length).takeWhile (· != AMP))
    else valueAfter key cs

/-- A form-encoded body: `key=value` pairs separated by `'&'`. -/
def encodeForm : List (List Nat × List Nat) → List Nat
  | [] => []
  | [(k, v)] => k ++ EQUALS :: v
  | (k, v) :: rest => k ++ EQUALS :: v ++ AMP :: encodeForm rest

/-- The credential a complete load finds in the store: the entries `ssid` and
`password` of namespace `wifi_creds`. -/
def storedCredential (nvs : Nvs) : Option (List Nat × List Nat) :=
  match assocGet "wifi_creds" nvs.spaces with
  | none => none
  | some entries =>
    match assocGet "ssid" entries, assocGet "password" entries with
    | some s, some p => some (s, p)
    | _, _ => none

/-! ## Concrete inputs -/

/-- An uninitialised `content` buffer filled with the byte `0xAA`. -/
def stackAA : List Nat := List.replicate 200 170

/-- The bytes of `"ssid=Foo&password=Bar"`. -/
def bodyFooBar : List Nat :=
  [115, 115, 105, 100, 61, 70, 111, 111, 38, 112, 97, 115, 115, 119, 111, 114, 100, 61, 66, 97, 114]

/-- The bytes of `"ssid=Foo"`. -/
def bodyFoo : List Nat := [115, 115, 105, 100, 61, 70, 111, 111]

/-- The body `"ssid=" ++ s ++ "&password=" ++ p`. -/
def bodySsidFirst (s p : List Nat) : List Nat :=
  ssidKey ++ (s ++ AMP :: (passwordKey ++ p))

/-- The body `"password=" ++ p ++ "&ssid=" ++ s`. -/
def bodyPasswordFirst (s p : List Nat) : List Nat :=
  passwordKey ++ (p ++ AMP :: (ssidKey ++ s))

/-- The body `"ssid=" ++ 40 times 'A' ++ "&password=x"`. -/
def bodyLongSsid : List Nat := bodySsidFirst (List.replicate 40 65) [120]

/-- The key name `password`. -/
def passwordName : List Nat := [112, 97, 115, 115, 119, 111, 114, 100]

/-- The key name `ssid`. -/
def ssidName : List Nat := [115, 115, 105, 100]

/-- The single pair `xpassword=foo`. -/
def pairsXPassword : List (List Nat × List Nat) := [(120 :: passwordName, [102, 111, 111])]

/-- The single pair `bssid=x`. -/
def pairsBssid : List (List Nat × List Nat) := [(98 :: ssidName, [120])]

/-- The buffer `char[size]` that holds the C string `v` and is NUL elsewhere. -/
def fieldBuffer (size : Nat) (v : List Nat) : List Nat := v ++ List.replicate (size - v.length) 0

/-- A usable store without any namespace. -/
def emptyStore : Nvs := { available := true, spaces := [] }

/-- A usable store whose namespace `wifi_creds` holds the ssid `Home` and no password. -/
def storeSsidOnly : Nvs :=
  { available := true, spaces := [("wifi_creds", [("ssid", [72, 111, 109, 101])])] }

/-- A usable store whose namespace `wifi_creds` holds the ssid `Home` and the password
`secret12`. -/
def storeHome : Nvs :=
  { available := true
    spaces := [("wifi_creds", [("ssid", [72, 111, 109, 101]),
      ("password", [115, 101, 99, 114, 101, 116, 49, 50])])] }

/-- The device in provisioning mode: the state `app_main` reaches on an empty store. -/
def provisioningSys : Sys := app_main emptyStore

/-! ## Lemmas on the C string primitives -/

theorem cstr_append_nul (u x : List Nat) (hu : 0 ∉ u) : cstr (u ++ 0 :: x) = u := by
  induction u with
  | nil => simp [cstr]
  | cons c cs ih =>
    have hc : c ≠ 0 := fun h => hu (by simp [h])
    have hcs : 0 ∉ cs := fun h => hu (by simp [h])
    simp [cstr, hc, ih hcs]

theorem cstr_append_nul_any (b r : List Nat) : cstr (b ++ 0 :: r) = cstr b := by
  induction b with
  | nil => simp [cstr]
  | cons c cs ih =>
    by_cases hc : c = 0
    · simp [cstr, hc]
    · simp [cstr, hc, ih]

theorem cstr_isPrefix (b : List Nat) : cstr b <+: b := by
  induction b with
  | nil => simp [cstr]
  | cons c cs ih =>
    by_cases hc : c = 0
    · simp [cstr, hc]
    · simp only [cstr, hc, if_false]
      exact (List.prefix_cons_inj c).2 ih

theorem cstr_append_zeros (u z : List Nat) (hu : 0 ∉ u) (hz : ∀ b ∈ z, b = 0) :
    cstr (u ++ z) = u := by
  induction u with
  | nil =>
    cases z with
    | nil => simp [cstr]
    | cons a z' => simp [cstr, hz a (by simp)]
  | cons c cs ih =>
    have hc : c ≠ 0 := fun h => hu (by simp [h])
    have hcs : 0 ∉ cs := fun h => hu (by simp [h])
    simp [cstr, hc, ih hcs]

theorem cstr_set_nul (u z : List Nat) (hu : 0 ∉ u) (hz : ∀ b ∈ z, b = 0) :
    cstr ((u ++ z).set u.length 0) = u := by
  induction u with
  | nil =>
    cases z with
    | nil => simp [cstr]
    | cons a z' => simp [cstr]
  | cons c cs ih =>
    have hc : c ≠ 0 := fun h => hu (by simp [h])
    have hcs : 0 ∉ cs := fun h => hu (by simp [h])
    have ih' := ih hcs
    simp only [List.cons_append, List.length_cons, List.set_cons_succ, cstr, hc, if_false]
    exact congrArg (c :: ·) ih'

theorem strlen_append_nul (u x : List Nat) (hu : 0 ∉ u) : strlen (u ++ 0 :: x) = u.length := by
  induction u with
  | nil => simp [strlen]
  | cons c cs ih =>
    have hc : c ≠ 0 := fun h => hu (by simp [h])
    have hcs : 0 ∉ cs := fun h => hu (by simp [h])
    simp [strlen, hc, ih hcs]

theorem strlen_eq_length_cstr (b : List Nat) : strlen b = (cstr b).length := by
  induction b with
  | nil => simp [strlen, cstr]
  | cons c cs ih =>
    by_cases hc : c = 0
    · simp [strlen, cstr, hc]
    · simp [strlen, cstr, hc, ih]

theorem startsWith_append_nul (body rest key : List Nat) (h : 0 ∉ body) :
    startsWith (body ++ 0 :: rest) key = key.isPrefixOf body := by
  induction body generalizing key with
  | nil => cases key <;> simp [startsWith, List.isPrefixOf]
  | cons c cs ih =>
    have hc : c ≠ 0 := fun h' => h (by simp [h'])
    have hcs : 0 ∉ cs := fun h' => h (by simp [h'])
    cases key with
    | nil => simp [startsWith, List.isPrefixOf]
    | cons n ns =>
      by_cases hn : c = n
      · subst hn
        simp [startsWith, List.isPrefixOf, hc, ih ns hcs]
      · have hn' : ¬ n = c := fun h' => hn h'.symm
        simp [startsWith, List.isPrefixOf, hc, hn, hn']

theorem strncpyBytes_nil (n : Nat) : strncpyBytes [] n = List.replicate n 0 := by
  induction n with
  | zero => simp [strncpyBytes]
  | succ n ih => simp [strncpyBytes, ih, List.replicate_succ]

theorem strncpyBytes_append_nul (t rest : List Nat) (n : Nat) (ht : 0 ∉ t) :
    strncpyBytes (t ++ 0 :: rest) n = t.take n ++ List.replicate (n - t.length) 0 := by
  induction t generalizing n with
  | nil =>
    cases n with
    | zero => simp [strncpyBytes]
    | succ n => simp [strncpyBytes, strncpyBytes_nil, List.replicate_succ]
  | cons c cs ih =>
    have hc : c ≠ 0 := fun h' => ht (by simp [h'])
    have hcs : 0 ∉ cs := fun h' => ht (by simp [h'])
    cases n with
    | zero => simp [strncpyBytes]
    | succ n => simp [strncpyBytes, hc, ih n hcs]

theorem strchr_append_nul (t rest : List Nat) (ch : Nat) (ht : 0 ∉ t) :
    match strchr (t ++ 0 :: rest) ch with
    | some d => d < t.length ∧ t.takeWhile (· != ch) = t.take d
    | none => t.takeWhile (· != ch) = t := by
  induction t with
  | nil => simp [strchr]
  | cons c cs ih =>
    have hc : c ≠ 0 := fun h' => ht (by simp [h'])
    have hcs : 0 ∉ cs := fun h' => ht (by simp [h'])
    have ih' := ih hcs
    by_cases hch : c = ch
    · subst hch
      simp [strchr, hc]
    · simp only [List.cons_append, strchr, hc, hch, if_false]
      cases hs : strchr (cs ++ 0 :: rest) ch with
      | none =>
        rw [hs] at ih'
        simp only at ih'
        simp [List.takeWhile_cons, hch, ih']
      | some d =>
        rw [hs] at ih'
        simp only at ih'
        simp [List.takeWhile_cons, hch, ih'.1, ih'.2]

/-! ## The parser against the value that follows a key -/

theorem MIN_eq_min (x y : Nat) : MIN x y = min x y := by
  unfold MIN
  split <;> omega

theorem strstr_append_nul (body rest key : List Nat) (h0 : 0 ∉ body) (hk : key ≠ []) :
    match strstr (body ++ 0 :: rest) key with
    | some off => off + key.length ≤ body.length ∧
        valueAfter key body = some ((body.drop (off + key.length)).takeWhile (· != AMP))
    | none => valueAfter key body = none := by
  induction body with
  | nil =>
    cases key with
    | nil => exact absurd rfl hk
    | cons n ns => simp [strstr, startsWith, valueAfter, List.isPrefixOf]
  | cons c cs ih =>
    have hc : c ≠ 0 := fun h' => h0 (by simp [h'])
    have hcs : 0 ∉ cs := fun h' => h0 (by simp [h'])
    have ih' := ih hcs
    have hsw := startsWith_append_nul (c :: cs) rest key h0
    rw [List.cons_append] at hsw
    rw [List.cons_append]
    by_cases hp : key.isPrefixOf (c :: cs) = true
    · have hlen : key.length ≤ (c :: cs).length :=
        (List.isPrefixOf_iff_prefix.1 hp).length_le
      simp only [strstr, hsw, hp, if_true, valueAfter]
      exact ⟨by simpa using hlen, by simp⟩
    · simp only [strstr, hsw, hp, hc, if_false, valueAfter]
      cases hs : strstr (cs ++ 0 :: rest) key with
      | none =>
        rw [hs] at ih'
        simpa using ih'
      | some off =>
        rw [hs] at ih'
        simp only at ih'
        simp only [Option.map_some', List.length_cons]
        refine ⟨by omega, ?_⟩
        rw [ih'.2]
        have : off + 1 + key.length = (off + key.length) + 1 := by omega
        rw [this, List.drop_succ_cons]
        simp

theorem copy_terminated (N : Nat) (t rest : List Nat) (len : Nat) (ht : 0 ∉ t)
    (hlen : len ≤ t.length) :
    cstr ((strncpy (List.replicate N 0) (t ++ 0 :: rest) len).set len 0) = t.take len := by
  unfold strncpy
  rw [strncpyBytes_append_nul t rest len ht]
  have h0 : len - t.length = 0 := by omega
  have hl : (t.take len).length = len := by simp [hlen]
  rw [h0, List.replicate_zero, List.append_nil]
  have := cstr_set_nul (t.take len) ((List.replicate N 0).drop len)
    (fun h => ht (List.mem_of_mem_take h))
    (fun b hb => List.eq_of_mem_replicate (List.mem_of_mem_drop hb))
  rw [hl] at this
  exact this

theorem copy_padded (N : Nat) (t rest : List Nat) (n : Nat) (ht : 0 ∉ t) :
    cstr (strncpy (List.replicate N 0) (t ++ 0 :: rest) n) = t.take n := by
  unfold strncpy
  rw [strncpyBytes_append_nul t rest n ht, List.append_assoc]
  apply cstr_append_zeros _ _ (fun h => ht (List.mem_of_mem_take h))
  intro b hb
  rcases List.mem_append.1 hb with hb | hb
  · exact List.eq_of_mem_replicate hb
  · exact List.eq_of_mem_replicate (List.mem_of_mem_drop hb)

theorem cstr_replicate_zero (N : Nat) : cstr (List.replicate N 0) = [] := by
  cases N <;> simp [cstr, List.replicate_succ]

/-- On a NUL-free body followed by its terminator, the parsed ssid is the value that
follows the first `ssid=`, cut to 31 bytes, and empty when `ssid=` does not occur. -/
theorem parse_ssid_eq (body rest : List Nat) (h0 : 0 ∉ body) :
    cstr (parse_ssid (body ++ 0 :: rest)) = ((valueAfter ssidKey body).getD []).take 31 := by
  have hs := strstr_append_nul body rest ssidKey h0 (by simp [ssidKey])
  unfold parse_ssid
  cases hstr : strstr (body ++ 0 :: rest) ssidKey with
  | none =>
    rw [hstr] at hs
    simp only at hs
    simp [hs, cstr_replicate_zero]
  | some off =>
    rw [hstr] at hs
    simp only at hs
    obtain ⟨hle, hv⟩ := hs
    have hklen : ssidKey.length = 5 := rfl
    rw [hklen] at hle hv
    have hdrop : (body ++ 0 :: rest).drop (off + 5) = body.drop (off + 5) ++ 0 :: rest :=
      List.drop_append_of_le_length hle
    have ht : 0 ∉ body.drop (off + 5) := fun h => h0 (List.mem_of_mem_drop h)
    have hc := strchr_append_nul (body.drop (off + 5)) rest AMP ht
    simp only [hdrop]
    cases hch : strchr (body.drop (off + 5) ++ 0 :: rest) AMP with
    | none =>
      rw [hch] at hc
      simp only at hc
      simp only [hv, Option.getD_some, hc, SSID_SIZE]
      exact copy_padded 32 _ rest 31 ht
    | some d =>
      rw [hch] at hc
      simp only at hc
      simp only [hv, Option.getD_some, hc.2, SSID_SIZE, MIN_eq_min]
      rw [copy_terminated 32 _ rest _ ht (by omega), List.take_take, Nat.min_comm]

/-- On a NUL-free body followed by its terminator, the parsed password is the value
that follows the first `password=`, cut to 63 bytes, and empty when `password=` does
not occur. -/
theorem parse_password_eq (body rest : List Nat) (h0 : 0 ∉ body) :
    cstr (parse_password (body ++ 0 :: rest)) =
      ((valueAfter passwordKey body).getD []).take 63 := by
  have hs := strstr_append_nul body rest passwordKey h0 (by simp [passwordKey])
  unfold parse_password
  cases hstr : strstr (body ++ 0 :: rest) passwordKey with
  | none =>
    rw [hstr] at hs
    simp only at hs
    simp [hs, cstr_replicate_zero]
  | some off =>
    rw [hstr] at hs
    simp only at hs
    obtain ⟨hle, hv⟩ := hs
    have hklen : passwordKey.length = 9 := rfl
    rw [hklen] at hle hv
    have hdrop : (body ++ 0 :: rest).drop (off + 9) = body.drop (off + 9) ++ 0 :: rest :=
      List.drop_append_of_le_length hle
    have ht : 0 ∉ body.drop (off + 9) := fun h => h0 (List.mem_of_mem_drop h)
    have hc := strchr_append_nul (body.drop (off + 9)) rest AMP ht
    simp only [hdrop]
    cases hch : strchr (body.drop (off + 9) ++ 0 :: rest) AMP with
    | none =>
      rw [hch] at hc
      simp only at hc
      simp only [hv, Option.getD_some, hc, PASSWORD_SIZE, MIN_eq_min,
        strlen_append_nul _ rest ht]
      rw [copy_terminated 64 _ rest _ ht (by omega)]
      simp [List.take_eq_take, Nat.min_comm]
    | some d =>
      rw [hch] at hc
      simp only at hc
      simp only [hv, Option.getD_some, hc.2, PASSWORD_SIZE, MIN_eq_min]
      rw [copy_terminated 64 _ rest _ ht (by omega), List.take_take, Nat.min_comm]

theorem contentAfterRecv_full (stack body : List Nat) (h : body.length < stack.length) :
    contentAfterRecv stack body body.length = body ++ 0 :: stack.drop (body.length + 1) := by
  unfold contentAfterRecv
  have hd : stack.drop body.length =
      stack.get ⟨body.length, h⟩ :: stack.drop (body.length + 1) := by
    simp
  rw [hd, List.set_append_right _ _ (Nat.le_refl _), Nat.sub_self, List.set_cons_zero]

theorem startsWith_isPrefix_cstr (s key : List Nat) (h : startsWith s key = true) :
    key <+: cstr s := by
  induction s generalizing key with
  | nil =>
    cases key with
    | nil => simp
    | cons n ns => simp [startsWith] at h
  | cons c cs ih =>
    cases key with
    | nil => simp
    | cons n ns =>
      by_cases hc : c = 0
      · simp [startsWith, hc] at h
      · by_cases hn : c = n
        · subst hn
          simp only [startsWith, hc, if_false, if_true] at h
          simp only [cstr, hc, if_false]
          exact (List.prefix_cons_inj c).2 (ih ns h)
        · simp [startsWith, hc, hn] at h

theorem strstr_isInfix_cstr (s key : List Nat) (off : Nat) (h : strstr s key = some off) :
    key <:+: cstr s := by
  induction s generalizing off with
  | nil =>
    by_cases hp : startsWith [] key = true
    · exact (startsWith_isPrefix_cstr [] key hp).isInfix
    · simp [strstr, hp] at h
  | cons c cs ih =>
    by_cases hp : startsWith (c :: cs) key = true
    · exact (startsWith_isPrefix_cstr (c :: cs) key hp).isInfix
    · by_cases hc : c = 0
      · subst hc
        simp [strstr, hp] at h
      · simp only [strstr, hp, hc, if_false] at h
        cases hs : strstr cs key with
        | none => simp [hs] at h
        | some o =>
          have := ih o hs
          simp only [cstr, hc, if_false]
          exact this.trans (List.suffix_cons c _).isInfix

theorem strstr_none_of_not_infix (stack body key : List Nat) (h : body.length < stack.length)
    (hk : ¬ key <:+: body) : strstr (contentAfterRecv stack body body.length) key = none := by
  cases hs : strstr (contentAfterRecv stack body body.length) key with
  | none => rfl
  | some off =>
    exfalso
    have h1 := strstr_isInfix_cstr _ _ _ hs
    rw [contentAfterRecv_full stack body h, cstr_append_nul_any] at h1
    exact hk (h1.trans (cstr_isPrefix body).isInfix)

/-! ## The values that follow the keys in the two orders of the form -/

theorem takeWhile_before_amp (v tail : List Nat) (h : AMP ∉ v) :
    (v ++ AMP :: tail).takeWhile (· != AMP) = v := by
  induction v with
  | nil => simp
  | cons c cs ih =>
    have hc : c ≠ AMP := fun h' => h (by simp [h'])
    have hcs : AMP ∉ cs := fun h' => h (by simp [h'])
    simp [List.takeWhile_cons, hc, ih hcs]

theorem takeWhile_no_amp (v : List Nat) (h : AMP ∉ v) : v.takeWhile (· != AMP) = v := by
  induction v with
  | nil => simp
  | cons c cs ih =>
    have hc : c ≠ AMP := fun h' => h (by simp [h'])
    have hcs : AMP ∉ cs := fun h' => h (by simp [h'])
    simp [List.takeWhile_cons, hc, ih hcs]

theorem isPrefixOf_before_amp (name u tail : List Nat) (hn : AMP ∉ name) (hu : EQUALS ∉ u) :
    (name ++ [EQUALS]).isPrefixOf (u ++ AMP :: tail) = false := by
  induction name generalizing u with
  | nil =>
    cases u with
    | nil => simp [List.isPrefixOf, AMP, EQUALS]
    | cons c cs =>
      have hc : EQUALS ≠ c := fun h' => hu (by simp [h'])
      simp [List.isPrefixOf, hc]
  | cons x xs ih =>
    have hx : x ≠ AMP := fun h' => hn (by simp [h'])
    have hxs : AMP ∉ xs := fun h' => hn (by simp [h'])
    cases u with
    | nil => simp [List.isPrefixOf, hx]
    | cons c cs =>
      have hcs : EQUALS ∉ cs := fun h' => hu (by simp [h'])
      have := ih cs hxs hcs
      rw [List.cons_append, List.cons_append]
      simp only [List.isPrefixOf, this, Bool.and_false]

theorem valueAfter_skip (name u tail : List Nat) (hn : AMP ∉ name) (hu : EQUALS ∉ u) :
    valueAfter (name ++ [EQUALS]) (u ++ AMP :: tail) =
      valueAfter (name ++ [EQUALS]) (AMP :: tail) := by
  induction u with
  | nil => rfl
  | cons c cs ih =>
    have hcs : EQUALS ∉ cs := fun h' => hu (by simp [h'])
    have hp := isPrefixOf_before_amp name (c :: cs) tail hn hu
    rw [List.cons_append] at hp ⊢
    rw [valueAfter, hp]
    simpa using ih hcs

theorem valueAfter_ssid_ssidFirst (s p : List Nat) (hs : AMP ∉ s) :
    valueAfter ssidKey (bodySsidFirst s p) = some s := by
  have := takeWhile_before_amp s (passwordKey ++ p) hs
  simp [bodySsidFirst, ssidKey, valueAfter, List.isPrefixOf]
  simpa using this

theorem valueAfter_password_ssidFirst (s p : List Nat) (hs : EQUALS ∉ s) (hp : AMP ∉ p) :
    valueAfter passwordKey (bodySsidFirst s p) = some p := by
  have h1 : ∀ X, valueAfter passwordKey (ssidKey ++ X) = valueAfter passwordKey X := by
    intro X
    simp [ssidKey, passwordKey, valueAfter, List.isPrefixOf]
  have h2 := valueAfter_skip passwordName s (passwordKey ++ p) (by simp [passwordName, AMP]) hs
  have h3 : valueAfter passwordKey (AMP :: (passwordKey ++ p)) = some (p.takeWhile (· != AMP)) := by
    simp [passwordKey, valueAfter, List.isPrefixOf, AMP]
  have hk : passwordName ++ [EQUALS] = passwordKey := rfl
  rw [hk] at h2
  rw [bodySsidFirst, h1, h2, h3, takeWhile_no_amp p hp]

theorem valueAfter_password_passwordFirst (s p : List Nat) (hp : AMP ∉ p) :
    valueAfter passwordKey (bodyPasswordFirst s p) = some p := by
  have := takeWhile_before_amp p (ssidKey ++ s) hp
  simp [bodyPasswordFirst, passwordKey, valueAfter, List.isPrefixOf]
  simpa using this

theorem valueAfter_ssid_passwordFirst (s p : List Nat) (hs : AMP ∉ s) (hp : EQUALS ∉ p) :
    valueAfter ssidKey (bodyPasswordFirst s p) = some s := by
  have h1 : ∀ X, valueAfter ssidKey (passwordKey ++ X) = valueAfter ssidKey X := by
    intro X
    simp [ssidKey, passwordKey, valueAfter, List.isPrefixOf]
  have h2 := valueAfter_skip ssidName p (ssidKey ++ s) (by simp [ssidName, AMP]) hp
  have h3 : valueAfter ssidKey (AMP :: (ssidKey ++ s)) = some (s.takeWhile (· != AMP)) := by
    simp [ssidKey, valueAfter, List.isPrefixOf, AMP]
  have hk : ssidName ++ [EQUALS] = ssidKey := rfl
  rw [hk] at h2
  rw [bodyPasswordFirst, h1, h2, h3, takeWhile_no_amp s hs]

theorem recv_size_of_lt (n : Nat) (h : n < 200) : recv_size n = n := by
  simp [recv_size, MIN, CONTENT_SIZE, h]

theorem stackAA_length : stackAA.length = 200 :=
  List.length_replicate 200 170

theorem parse_received (stack body : List Nat) (hstack : stack.length = 200)
    (hlen : body.length ≤ 199) (h0 : 0 ∉ body) :
    cstr (parse_ssid (contentAfterRecv stack body (recv_size body.length))) =
        ((valueAfter ssidKey body).getD []).take 31 ∧
      cstr (parse_password (contentAfterRecv stack body (recv_size body.length))) =
        ((valueAfter passwordKey body).getD []).take 63 := by
  rw [recv_size_of_lt _ (by omega), contentAfterRecv_full _ _ (by omega)]
  exact ⟨parse_ssid_eq _ _ h0, parse_password_eq _ _ h0⟩

theorem bodySsidFirst_length (s p : List Nat) :
    (bodySsidFirst s p).length = s.length + p.length + 15 := by
  simp [bodySsidFirst, ssidKey, passwordKey]
  omega

theorem bodyPasswordFirst_length (s p : List Nat) :
    (bodyPasswordFirst s p).length = s.length + p.length + 15 := by
  simp [bodyPasswordFirst, ssidKey, passwordKey]
  omega

theorem bodySsidFirst_no_nul (s p : List Nat) (hs : 0 ∉ s) (hp : 0 ∉ p) :
    0 ∉ bodySsidFirst s p := by
  simp [bodySsidFirst, ssidKey, passwordKey, AMP, hs, hp]

theorem bodyPasswordFirst_no_nul (s p : List Nat) (hs : 0 ∉ s) (hp : 0 ∉ p) :
    0 ∉ bodyPasswordFirst s p := by
  simp [bodyPasswordFirst, ssidKey, passwordKey, AMP, hs, hp]

/-! ## Lemmas on the store and on the load -/

theorem assocGet_assocSet_same {β : Type} (k : String) (v : β) (l : List (String × β)) :
    assocGet k (assocSet k v l) = some v := by
  induction l with
  | nil => simp [assocSet, assocGet]
  | cons kv rest ih =>
    obtain ⟨k', v'⟩ := kv
    by_cases h : k' = k
    · simp [assocSet, assocGet, h]
    · simp [assocSet, assocGet, h, ih]

theorem assocGet_assocSet_ne {β : Type} (k k2 : String) (v : β) (l : List (String × β))
    (hne : k ≠ k2) : assocGet k2 (assocSet k v l) = assocGet k2 l := by
  induction l with
  | nil => simp [assocSet, assocGet, hne]
  | cons kv rest ih =>
    obtain ⟨k', v'⟩ := kv
    by_cases h : k' = k
    · subst h
      simp [assocSet, assocGet, hne]
    · by_cases h2 : k' = k2
      · subst h2
        simp [assocSet, assocGet, h]
      · simp [assocSet, assocGet, h, h2, ih]

theorem cstr_no_nul (b : List Nat) : 0 ∉ cstr b := by
  induction b with
  | nil => simp [cstr]
  | cons c cs ih =>
    by_cases hc : c = 0
    · simp [cstr, hc]
    · simp only [cstr, hc, if_false, List.mem_cons, not_or]
      exact ⟨fun h => hc h.symm, ih⟩

theorem cstr_fieldBuffer (size : Nat) (v : List Nat) (h0 : 0 ∉ v) :
    cstr (fieldBuffer size v) = v :=
  cstr_append_zeros v _ h0 (fun _ hb => List.eq_of_mem_replicate hb)

theorem cstr_strcpy (dest src : List Nat) : cstr (strcpy dest src) = cstr src := by
  unfold strcpy
  exact cstr_append_nul _ _ (cstr_no_nul src)

/-- What the save step leaves in the store. -/
theorem save_credentials_stored (nvs : Nvs) (ssid password : List Nat)
    (havail : nvs.available = true) :
    (save_credentials nvs ssid password).available = true ∧
      storedCredential (save_credentials nvs ssid password) =
        some (cstr ssid, cstr password) := by
  have hne : ("password" : String) ≠ "ssid" := by decide
  unfold save_credentials nvs_open
  rw [havail]
  cases hg : assocGet "wifi_creds" nvs.spaces with
  | none =>
    simp [nvs_set_str, storedCredential, assocGet_assocSet_same, assocGet_assocSet_ne, hne, havail]
  | some entries =>
    simp [nvs_set_str, storedCredential, assocGet_assocSet_same, assocGet_assocSet_ne, hne, havail,
      hg]

theorem storedCredential_some (nvs : Nvs) (s p : List Nat)
    (hst : storedCredential nvs = some (s, p)) :
    ∃ entries, assocGet "wifi_creds" nvs.spaces = some entries ∧
      assocGet "ssid" entries = some s ∧ assocGet "password" entries = some p := by
  unfold storedCredential at hst
  cases hg : assocGet "wifi_creds" nvs.spaces with
  | none => simp [hg] at hst
  | some entries =>
    rw [hg] at hst
    cases hgs : assocGet "ssid" entries with
    | none => simp [hgs] at hst
    | some s' =>
      cases hgp : assocGet "password" entries with
      | none => simp [hgs, hgp] at hst
      | some p' =>
        simp only [hgs, hgp, Option.some.injEq, Prod.mk.injEq] at hst
        obtain ⟨rfl, rfl⟩ := hst
        exact ⟨entries, rfl, hgs, hgp⟩

/-- What the load does on a store that holds a complete credential. -/
theorem try_saved_wifi_loaded (sys : Sys) (s p : List Nat) (havail : sys.nvs.available = true)
    (hst : storedCredential sys.nvs = some (s, p)) (hs : s.length ≤ 31) (hp : p.length ≤ 63) :
    try_saved_wifi sys =
      ({ sys with wifi :=
          { mode := some .WIFI_MODE_STA
            sta_config := some
              { ssid := strcpy (List.replicate 32 0) (s ++ 0 :: (List.replicate 32 0).drop (s.length + 1))
                password := strcpy (List.replicate 64 0)
                  (p ++ 0 :: (List.replicate 64 0).drop (p.length + 1)) }
            ap_config := sys.wifi.ap_config
            started := true
            connects := sys.wifi.connects + 1 } }, true) := by
  unfold storedCredential at hst
  cases hg : assocGet "wifi_creds" sys.nvs.spaces with
  | none => simp [hg] at hst
  | some entries =>
    rw [hg] at hst
    cases hgs : assocGet "ssid" entries with
    | none => simp [hgs] at hst
    | some s' =>
      cases hgp : assocGet "password" entries with
      | none => simp [hgs, hgp] at hst
      | some p' =>
        simp only [hgs, hgp, Option.some.injEq, Prod.mk.injEq] at hst
        obtain ⟨rfl, rfl⟩ := hst
        have hs' : s'.length + 1 ≤ 32 := by omega
        have hp' : p'.length + 1 ≤ 64 := by omega
        simp [try_saved_wifi, nvs_open, nvs_get_str, havail, hg, hgs, hgp, hs', hp',
          esp_wifi_connect]

theorem deliver_frame (K : EventIds) (sys : Sys) (events : List Event) :
    (deliver K sys events).nvs = sys.nvs ∧ (deliver K sys events).server = sys.server ∧
      (deliver K sys events).wifi.mode = sys.wifi.mode ∧
      (deliver K sys events).wifi.sta_config = sys.wifi.sta_config ∧
      (deliver K sys events).wifi.ap_config = sys.wifi.ap_config ∧
      (deliver K sys events).wifi.started = sys.wifi.started ∧
      sys.wifi.connects ≤ (deliver K sys events).wifi.connects := by
  induction events generalizing sys with
  | nil => simp [deliver]
  | cons e es ih =>
    have h := ih { sys with wifi := wifi_event_handler K sys.wifi e }
    have hw : (wifi_event_handler K sys.wifi e).mode = sys.wifi.mode ∧
        (wifi_event_handler K sys.wifi e).sta_config = sys.wifi.sta_config ∧
        (wifi_event_handler K sys.wifi e).ap_config = sys.wifi.ap_config ∧
        (wifi_event_handler K sys.wifi e).started = sys.wifi.started ∧
        sys.wifi.connects ≤ (wifi_event_handler K sys.wifi e).connects := by
      unfold wifi_event_handler
      split_ifs <;> simp [esp_wifi_connect]
    simp only [deliver, List.foldl_cons] at h ⊢
    obtain ⟨h1, h2, h3, h4, h5, h6, h7⟩ := h
    obtain ⟨w1, w2, w3, w4, w5⟩ := hw
    refine ⟨h1, h2, h3.trans w1, h4.trans w2, h5.trans w3, h6.trans w4, ?_⟩
    exact Nat.le_trans w5 h7

/-! ## The claims on the form parser -/

/-- C1: for an ssid value `s` of at most 31 bytes and a password value `p` of at most
63 bytes, neither containing `'&'`, `'='` or NUL, the parser of `save_post_handler`
applied to the fully received body `"ssid=" ++ s ++ "&password=" ++ p`, and to the body
with the pairs in the other order, yields exactly ssid `s` and password `p`; bytes such
as `'%'` and `'+'` come back as they are.  (The lower bound of one byte on `s` is
not needed.) -/
theorem C1_parse_form_both_orders (stack s p : List Nat) (hstack : stack.length = 200)
    (hs : s.length ≤ 31) (hp : p.length ≤ 63)
    (hsb : ∀ b ∈ s, b ≠ AMP ∧ b ≠ EQUALS ∧ b ≠ 0)
    (hpb : ∀ b ∈ p, b ≠ AMP ∧ b ≠ EQUALS ∧ b ≠ 0) :
    (cstr (parse_ssid (contentAfterRecv stack (bodySsidFirst s p)
        (recv_size (bodySsidFirst s p).length))) = s ∧
      cstr (parse_password (contentAfterRecv stack (bodySsidFirst s p)
        (recv_size (bodySsidFirst s p).length))) = p) ∧
    (cstr (parse_ssid (contentAfterRecv stack (bodyPasswordFirst s p)
        (recv_size (bodyPasswordFirst s p).length))) = s ∧
      cstr (parse_password (contentAfterRecv stack (bodyPasswordFirst s p)
        (recv_size (bodyPasswordFirst s p).length))) = p) := by
  have hsA : AMP ∉ s := fun h => (hsb _ h).1 rfl
  have hsE : EQUALS ∉ s := fun h => (hsb _ h).2.1 rfl
  have hs0 : 0 ∉ s := fun h => (hsb _ h).2.2 rfl
  have hpA : AMP ∉ p := fun h => (hpb _ h).1 rfl
  have hpE : EQUALS ∉ p := fun h => (hpb _ h).2.1 rfl
  have hp0 : 0 ∉ p := fun h => (hpb _ h).2.2 rfl
  have h1 := parse_received stack (bodySsidFirst s p) hstack
    (by rw [bodySsidFirst_length]; omega) (bodySsidFirst_no_nul s p hs0 hp0)
  have h2 := parse_received stack (bodyPasswordFirst s p) hstack
    (by rw [bodyPasswordFirst_length]; omega) (bodyPasswordFirst_no_nul s p hs0 hp0)
  rw [valueAfter_ssid_ssidFirst s p hsA, valueAfter_password_ssidFirst s p hsE hpA] at h1
  rw [valueAfter_ssid_passwordFirst s p hsA hpE, valueAfter_password_passwordFirst s p hpA] at h2
  simp only [Option.getD_some, List.take_of_length_le hs, List.take_of_length_le hp] at h1 h2
  exact ⟨h1, h2⟩

/-- C1, at `"ssid=Foo&password=Bar"` and `"password=Bar&ssid=Foo"` received into a
buffer of `0xAA` bytes. -/
theorem C1_parse_form_both_orders_witness :
    (cstr (parse_ssid (contentAfterRecv stackAA (bodySsidFirst [70, 111, 111] [66, 97, 114])
        (recv_size (bodySsidFirst [70, 111, 111] [66, 97, 114]).length))) = [70, 111, 111] ∧
      cstr (parse_password (contentAfterRecv stackAA (bodySsidFirst [70, 111, 111] [66, 97, 114])
        (recv_size (bodySsidFirst [70, 111, 111] [66, 97, 114]).length))) = [66, 97, 114]) ∧
    (cstr (parse_ssid (contentAfterRecv stackAA (bodyPasswordFirst [70, 111, 111] [66, 97, 114])
        (recv_size (bodyPasswordFirst [70, 111, 111] [66, 97, 114]).length))) = [70, 111, 111] ∧
      cstr (parse_password (contentAfterRecv stackAA
        (bodyPasswordFirst [70, 111, 111] [66, 97, 114])
        (recv_size (bodyPasswordFirst [70, 111, 111] [66, 97, 114]).length))) = [66, 97, 114]) :=
  C1_parse_form_both_orders stackAA [70, 111, 111] [66, 97, 114] stackAA_length (by decide)
    (by decide) (by decide) (by decide)

/-- C2 as stated fails: the body `xpassword=foo` is one `key=value` pair whose key is not
`password`, yet the parsed password is `foo`; the body `bssid=x` is one pair whose key is
not `ssid`, yet the parsed ssid is `x`. -/
theorem C2_counterexample :
    ((∀ kv ∈ pairsXPassword, kv.1 ≠ passwordName) ∧
      cstr (parse_password (contentAfterRecv stackAA (encodeForm pairsXPassword)
        (recv_size (encodeForm pairsXPassword).length))) = [102, 111, 111]) ∧
    ((∀ kv ∈ pairsBssid, kv.1 ≠ ssidName) ∧
      cstr (parse_ssid (contentAfterRecv stackAA (encodeForm pairsBssid)
        (recv_size (encodeForm pairsBssid).length))) = [120]) := by
  decide

/-- C2, amended: for every fully received body (at most 199 bytes) in which the bytes
`password=` occur nowhere, the parser of `save_post_handler` yields the empty password,
and for every such body in which the bytes `ssid=` occur nowhere, it yields the empty
ssid. -/
theorem C2_absent_key_gives_empty (stack body : List Nat) (hstack : stack.length = 200)
    (hlen : body.length ≤ 199) :
    (¬ passwordKey <:+: body →
      cstr (parse_password (contentAfterRecv stack body (recv_size body.length))) = []) ∧
    (¬ ssidKey <:+: body →
      cstr (parse_ssid (contentAfterRecv stack body (recv_size body.length))) = []) := by
  rw [recv_size_of_lt _ (by omega)]
  constructor
  · intro h
    have := strstr_none_of_not_infix stack body passwordKey (by omega) h
    simp [parse_password, this, cstr_replicate_zero]
  · intro h
    have := strstr_none_of_not_infix stack body ssidKey (by omega) h
    simp [parse_ssid, this, cstr_replicate_zero]

/-- C2, at the body `"ssid=Foo"`: the ssid is `Foo` and the password is empty. -/
theorem C2_absent_key_gives_empty_witness :
    cstr (parse_ssid (contentAfterRecv stackAA bodyFoo (recv_size bodyFoo.length))) =
        [70, 111, 111] ∧
      cstr (parse_password (contentAfterRecv stackAA bodyFoo (recv_size bodyFoo.length))) = [] :=
  ⟨by decide, (C2_absent_key_gives_empty stackAA bodyFoo stackAA_length (by decide)).1 (by decide)⟩

/-- C3: for every fully received body of at most 199 bytes without NUL, the parsed ssid
has at most 31 bytes and the parsed password at most 63; when the value that follows
`ssid=` is longer than 31 bytes the parsed ssid is its first 31 bytes, and when the
value that follows `password=` is longer than 63 bytes the parsed password is its
first 63 bytes. -/
theorem C3_truncation (stack body : List Nat) (hstack : stack.length = 200)
    (hlen : body.length ≤ 199) (h0 : 0 ∉ body) :
    (cstr (parse_ssid (contentAfterRecv stack body (recv_size body.length)))).length ≤ 31 ∧
    (cstr (parse_password (contentAfterRecv stack body (recv_size body.length)))).length ≤ 63 ∧
    (∀ v, valueAfter ssidKey body = some v → 31 < v.length →
      cstr (parse_ssid (contentAfterRecv stack body (recv_size body.length))) = v.take 31) ∧
    (∀ v, valueAfter passwordKey body = some v → 63 < v.length →
      cstr (parse_password (contentAfterRecv stack body (recv_size body.length))) =
        v.take 63) := by
  obtain ⟨h1, h2⟩ := parse_received stack body hstack hlen h0
  refine ⟨?_, ?_, ?_, ?_⟩
  · rw [h1]
    exact List.length_take_le _ _
  · rw [h2]
    exact List.length_take_le _ _
  · intro v hv _
    rw [h1, hv, Option.getD_some]
  · intro v hv _
    rw [h2, hv, Option.getD_some]

/-- C3, at `"ssid=" ++ 40 times 'A' ++ "&password=x"`: the ssid is 31 times `'A'`. -/
theorem C3_truncation_witness :
    0 ∉ bodyLongSsid ∧ valueAfter ssidKey bodyLongSsid = some (List.replicate 40 65) ∧
      cstr (parse_ssid (contentAfterRecv stackAA bodyLongSsid (recv_size bodyLongSsid.length))) =
        (List.replicate 40 65).take 31 ∧
      (List.replicate 40 65).take 31 = List.replicate 31 65 :=
  ⟨by decide, by decide,
    (C3_truncation stackAA bodyLongSsid stackAA_length (by decide) (by decide)).2.2.1
      (List.replicate 40 65) (by decide) (by decide),
    by decide⟩

/-- C10 fails on the code: for a declared content length of 200 (or more) the index
`recv_size` at which the handler writes the terminator is 200, one past the last
index of `char content[200]`, and the handler reaches that write whenever the receive
returns a positive count. -/
theorem C10_terminator_index_past_buffer :
    recv_size 200 = 200 ∧ ¬ recv_size 200 < CONTENT_SIZE ∧ recv_size 5000 = 200 ∧
      (save_post_handler (-3) provisioningSys stackAA 200 200 (List.replicate 200 65)).ret =
        .ESP_OK := by
  decide

/-! ## The claims on the store, the boot decision and the handlers -/

/-- C4: round trip of the credential store.  For every prior content of a usable store
and every credential with an ssid of at most 31 non-NUL bytes and a password of at most
63 non-NUL bytes, after the save step of `save_post_handler` has written it under
namespace `wifi_creds`, the load of `try_saved_wifi` succeeds and configures exactly
that ssid and that password. -/
theorem C4_save_then_load (nvs : Nvs) (wifi : Wifi) (server : Bool) (s p : List Nat)
    (havail : nvs.available = true) (hs : s.length ≤ 31) (hp : p.length ≤ 63)
    (hs0 : 0 ∉ s) (hp0 : 0 ∉ p) :
    (try_saved_wifi
      { nvs := save_credentials nvs (fieldBuffer 32 s) (fieldBuffer 64 p)
        wifi := wifi, server := server }).2 = true ∧
    (try_saved_wifi
      { nvs := save_credentials nvs (fieldBuffer 32 s) (fieldBuffer 64 p)
        wifi := wifi, server := server }).1.wifi.sta_config.map
        (fun c => (cstr c.ssid, cstr c.password)) = some (s, p) := by
  obtain ⟨ha, hst⟩ := save_credentials_stored nvs (fieldBuffer 32 s) (fieldBuffer 64 p) havail
  rw [cstr_fieldBuffer 32 s hs0, cstr_fieldBuffer 64 p hp0] at hst
  rw [try_saved_wifi_loaded _ s p ha hst hs hp]
  simp [cstr_strcpy, cstr_append_nul, hs0, hp0]

/-- C4, at the credential `Home` / `secret12` saved over a store that already holds
another entry. -/
theorem C4_save_then_load_witness :
    (try_saved_wifi
      { nvs := save_credentials storeSsidOnly (fieldBuffer 32 [72, 111, 109, 101])
          (fieldBuffer 64 [115, 101, 99, 114, 101, 116, 49, 50])
        wifi := Wifi.initial, server := false }).2 = true ∧
    (try_saved_wifi
      { nvs := save_credentials storeSsidOnly (fieldBuffer 32 [72, 111, 109, 101])
          (fieldBuffer 64 [115, 101, 99, 114, 101, 116, 49, 50])
        wifi := Wifi.initial, server := false }).1.wifi.sta_config.map
        (fun c => (cstr c.ssid, cstr c.password)) =
      some ([72, 111, 109, 101], [115, 101, 99, 114, 101, 116, 49, 50]) :=
  C4_save_then_load storeSsidOnly Wifi.initial false [72, 111, 109, 101]
    [115, 101, 99, 114, 101, 116, 49, 50] rfl (by decide) (by decide) (by decide) (by decide)

/-- C5 as stated fails: in provisioning mode (mode access-point-plus-client, radio
started, access point active) the submission `ssid=Foo&password=Bar` is persisted and
the connect is issued, and the radio mode after the handler is client-only: the
access point is no longer active. -/
theorem C5_counterexample :
    provisioningSys.wifi.mode = some .WIFI_MODE_APSTA ∧ provisioningSys.wifi.apActive = true ∧
    storedCredential (save_post_handler (-3) provisioningSys stackAA 21 21 bodyFooBar).sys.nvs =
      some ([70, 111, 111], [66, 97, 114]) ∧
    (save_post_handler (-3) provisioningSys stackAA 21 21 bodyFooBar).sys.wifi.connects = 1 ∧
    (save_post_handler (-3) provisioningSys stackAA 21 21 bodyFooBar).sys.wifi.mode =
      some .WIFI_MODE_STA ∧
    (save_post_handler (-3) provisioningSys stackAA 21 21 bodyFooBar).sys.wifi.apActive =
      false := by
  decide

/-- C5, amended: when `save_post_handler` handles a submission (the receive returned
data), whatever the radio mode before, in particular access-point-plus-client, after
the handler has saved the credential and issued exactly one client connect the radio
mode is client-only and does not include access-point mode. -/
theorem C5_handler_sets_client_mode (TIMEOUT : Int) (sys : Sys) (stack : List Nat)
    (content_len : Nat) (ret : Int) (data : List Nat) (hret : 0 < ret) :
    (save_post_handler TIMEOUT sys stack content_len ret data).sys.wifi.mode =
      some .WIFI_MODE_STA ∧
    (save_post_handler TIMEOUT sys stack content_len ret data).sys.wifi.apActive = false ∧
    (save_post_handler TIMEOUT sys stack content_len ret data).sys.wifi.connects =
      sys.wifi.connects + 1 ∧
    (save_post_handler TIMEOUT sys stack content_len ret data).sys.nvs =
      save_credentials sys.nvs
        (parse_ssid (contentAfterRecv stack data (recv_size content_len)))
        (parse_password (contentAfterRecv stack data (recv_size content_len))) := by
  have h : ¬ ret ≤ 0 := by omega
  simp [save_post_handler, h, connect_new_wifi, esp_wifi_connect, Wifi.apActive,
    WifiMode.includesAP]

/-- C5, amended, at the submission `ssid=Foo&password=Bar` in provisioning mode. -/
theorem C5_handler_sets_client_mode_witness :
    provisioningSys.wifi.mode = some .WIFI_MODE_APSTA ∧
    (save_post_handler (-3) provisioningSys stackAA 21 21 bodyFooBar).sys.wifi.mode =
      some .WIFI_MODE_STA :=
  ⟨by decide,
    (C5_handler_sets_client_mode (-3) provisioningSys stackAA 21 21 bodyFooBar (by decide)).1⟩

/-- C6 fails on the code: on a store whose namespace `wifi_creds` holds an ssid and no
password, no complete credential can be loaded and `try_saved_wifi` returns false, yet
`app_main` only starts the configuration server: no radio mode is set, the radio is not
started and the access point is not active.  On the empty store it does enter
provisioning with the access point active. -/
theorem C6_missing_password_boot_without_access_point :
    storedCredential storeSsidOnly = none ∧
    (try_saved_wifi { nvs := storeSsidOnly, wifi := Wifi.initial, server := false }).2 = false ∧
    (app_main storeSsidOnly).server = true ∧
    (app_main storeSsidOnly).wifi.mode = none ∧
    (app_main storeSsidOnly).wifi.started = false ∧
    (app_main storeSsidOnly).wifi.apActive = false ∧
    ((app_main emptyStore).wifi.mode = some .WIFI_MODE_APSTA ∧
      (app_main emptyStore).wifi.apActive = true ∧ (app_main emptyStore).server = true) := by
  decide

theorem app_main_loaded (nvs : Nvs) (s p : List Nat) (havail : nvs.available = true)
    (hst : storedCredential nvs = some (s, p)) (hs : s.length ≤ 31) (hp : p.length ≤ 63) :
    app_main nvs =
      { nvs := nvs
        wifi :=
          { mode := some .WIFI_MODE_STA
            sta_config := some
              { ssid := strcpy (List.replicate 32 0) (s ++ 0 :: (List.replicate 32 0).drop (s.length + 1))
                password := strcpy (List.replicate 64 0)
                  (p ++ 0 :: (List.replicate 64 0).drop (p.length + 1)) }
            ap_config := none
            started := true
            connects := 1 }
        server := false } := by
  obtain ⟨entries, hg, hgs, hgp⟩ := storedCredential_some nvs s p hst
  have hs' : s.length + 1 ≤ 32 := by omega
  have hl := try_saved_wifi_loaded { nvs := nvs, wifi := Wifi.initial, server := false } s p
    havail hst hs hp
  simp only [app_main, nvs_open, nvs_get_str, havail, hg, hgs, hs', if_true, Option.isSome_some,
    hl]
  simp [Wifi.initial]

/-- C7: for every usable store at boot that holds a complete credential (an ssid of at
most 31 bytes and a password of at most 63 bytes under namespace `wifi_creds`), `app_main`
configures client mode with exactly that ssid and password, starts the radio and issues
a connect; and whatever events are delivered afterwards, the radio mode stays
client-only, no access point is configured or active, and the configuration server is
not started. -/
theorem C7_boot_with_stored_credential (K : EventIds) (nvs : Nvs) (s p : List Nat)
    (events : List Event) (havail : nvs.available = true)
    (hst : storedCredential nvs = some (s, p)) (hs : s.length ≤ 31) (hp : p.length ≤ 63)
    (hs0 : 0 ∉ s) (hp0 : 0 ∉ p) :
    (deliver K (app_main nvs) events).wifi.mode = some .WIFI_MODE_STA ∧
    (deliver K (app_main nvs) events).wifi.sta_config.map
      (fun c => (cstr c.ssid, cstr c.password)) = some (s, p) ∧
    (deliver K (app_main nvs) events).wifi.started = true ∧
    1 ≤ (deliver K (app_main nvs) events).wifi.connects ∧
    (deliver K (app_main nvs) events).wifi.ap_config = none ∧
    (deliver K (app_main nvs) events).wifi.apActive = false ∧
    (deliver K (app_main nvs) events).server = false := by
  obtain ⟨_, h2, h3, h4, h5, h6, h7⟩ := deliver_frame K (app_main nvs) events
  have hm := app_main_loaded nvs s p havail hst hs hp
  rw [hm] at h2 h3 h4 h5 h6 h7 ⊢
  simp only at h2 h3 h4 h5 h6 h7
  refine ⟨h3, ?_, h6, h7, h5, ?_, h2⟩
  · rw [h4]
    simp [cstr_strcpy, cstr_append_nul, hs0, hp0]
  · unfold Wifi.apActive
    rw [h3]
    simp [WifiMode.includesAP]

/-- C7, at the store holding `Home` / `secret12`, followed by an IP-acquired event, a
disconnect with reason code 201 and a client-start event. -/
theorem C7_boot_with_stored_credential_witness :
    (deliver idfEventIds (app_main storeHome)
      [⟨.IP_EVENT, 0, 7⟩, ⟨.WIFI_EVENT, 5, 201⟩, ⟨.WIFI_EVENT, 2, 0⟩]).wifi.mode =
        some .WIFI_MODE_STA ∧
    (deliver idfEventIds (app_main storeHome)
      [⟨.IP_EVENT, 0, 7⟩, ⟨.WIFI_EVENT, 5, 201⟩, ⟨.WIFI_EVENT, 2, 0⟩]).server = false :=
  have h := C7_boot_with_stored_credential idfEventIds storeHome [72, 111, 109, 101]
    [115, 101, 99, 114, 101, 116, 49, 50]
    [⟨.IP_EVENT, 0, 7⟩, ⟨.WIFI_EVENT, 5, 201⟩, ⟨.WIFI_EVENT, 2, 0⟩] rfl (by decide) (by decide)
    (by decide) (by decide) (by decide)
  ⟨h.1, h.2.2.2.2.2.2⟩

/-- C8: for every client-disconnected event delivered to `wifi_event_handler`, whatever
its payload (reason code), the handler issues exactly one connect request and changes
nothing else; for station-joined-AP, station-left-AP and IP-acquired events it issues
none and leaves the driver as it is. -/
theorem C8_reconnect_once_per_disconnect (K : EventIds) (hK : K.wifiDistinct) (w : Wifi)
    (event_data : Nat) :
    wifi_event_handler K w ⟨.WIFI_EVENT, K.WIFI_EVENT_STA_DISCONNECTED, event_data⟩ =
      esp_wifi_connect w ∧
    (wifi_event_handler K w
      ⟨.WIFI_EVENT, K.WIFI_EVENT_STA_DISCONNECTED, event_data⟩).connects = w.connects + 1 ∧
    wifi_event_handler K w ⟨.WIFI_EVENT, K.WIFI_EVENT_AP_STACONNECTED, event_data⟩ = w ∧
    wifi_event_handler K w ⟨.WIFI_EVENT, K.WIFI_EVENT_AP_STADISCONNECTED, event_data⟩ = w ∧
    wifi_event_handler K w ⟨.IP_EVENT, K.IP_EVENT_STA_GOT_IP, event_data⟩ = w := by
  obtain ⟨h1, h2, h3, h4, h5, h6⟩ := hK
  have h3' := h3.symm
  have h5' := h5.symm
  have h6' := h6.symm
  have h1' := h1.symm
  refine ⟨?_, ?_, ?_, ?_, ?_⟩ <;>
    simp [wifi_event_handler, esp_wifi_connect, h3', h5', h6', h1']

/-- C8, at the event ids of ESP-IDF v5 and a disconnect with reason code 201. -/
theorem C8_reconnect_once_per_disconnect_witness :
    (wifi_event_handler idfEventIds Wifi.initial ⟨.WIFI_EVENT, 5, 201⟩).connects = 1 ∧
    wifi_event_handler idfEventIds Wifi.initial ⟨.WIFI_EVENT, 14, 201⟩ = Wifi.initial :=
  have h := C8_reconnect_once_per_disconnect idfEventIds
    (by simp [EventIds.wifiDistinct, idfEventIds]) Wifi.initial 201
  ⟨h.2.1, h.2.2.1⟩

/-- C9 as stated fails: when the receive returns 0 bytes, or fails with an error other
than the timeout, `save_post_handler` sends nothing at all (no 200 page) and returns
`ESP_FAIL`. -/
theorem C9_counterexample :
    (save_post_handler (-3) provisioningSys stackAA 0 0 []).sent = [] ∧
    (save_post_handler (-3) provisioningSys stackAA 0 0 []).ret = .ESP_FAIL ∧
    (save_post_handler (-3) provisioningSys stackAA 21 (-1) []).sent = [] ∧
    (save_post_handler (-3) provisioningSys stackAA 21 (-1) []).ret = .ESP_FAIL := by
  decide

/-- C9, amended: with a negative timeout code, for every request and every result of the
receive call, `save_post_handler` sends the 408 response, and nothing else, if and only
if the receive timed out; it sends the 200 acknowledgment page, and nothing else, if and
only if the receive returned a positive byte count; and when the receive returns 0 or
fails with another error it sends no response and returns `ESP_FAIL`, leaving the
device as it was. -/
theorem C9_responses (TIMEOUT : Int) (hT : TIMEOUT < 0) (sys : Sys) (stack : List Nat)
    (content_len : Nat) (ret : Int) (data : List Nat) :
    ((save_post_handler TIMEOUT sys stack content_len ret data).sent = [.timeout408] ↔
      ret = TIMEOUT) ∧
    ((save_post_handler TIMEOUT sys stack content_len ret data).sent = [.ok200 ackPage] ↔
      0 < ret) ∧
    (ret ≤ 0 → ret ≠ TIMEOUT →
      (save_post_handler TIMEOUT sys stack content_len ret data).sent = [] ∧
      (save_post_handler TIMEOUT sys stack content_len ret data).ret = .ESP_FAIL ∧
      (save_post_handler TIMEOUT sys stack content_len ret data).sys = sys) := by
  by_cases h : ret ≤ 0
  · by_cases ht : ret = TIMEOUT
    · subst ht
      have h' : ¬ 0 < ret := by omega
      simp [save_post_handler, h, h']
    · have h' : ¬ 0 < ret := by omega
      simp [save_post_handler, h, ht, h']
  · have h' : 0 < ret := by omega
    have ht : ret ≠ TIMEOUT := by omega
    simp [save_post_handler, h, ht, h']

/-- C9, amended, at the timeout code `-3`: a timed-out receive is answered with 408. -/
theorem C9_responses_witness :
    (save_post_handler (-3) provisioningSys stackAA 21 (-3) []).sent = [.timeout408] :=
  (C9_responses (-3) (by decide) provisioningSys stackAA 21 (-3) []).1.2 rfl

end MorseBot
